import Mathlib

/-!
# Verification of the game-loop core of `src/js/engine.js`

Shallow embedding of the engine of the FEND arcade game: the game-phase
state machine, the frame loop (`main` / `init`), per-phase `update`
dispatch, collision detection (`checkCollisions`) and `render`.

Positions and timestamps are JavaScript numbers; they are embedded as
rationals (all arithmetic the engine performs on them — addition of small
integer constants, comparison, division by constants — is exact on the
values involved).

Event-listener identity: the NewGame and GameOver branches of `update`
create a fresh arrow-function closure on every call before passing it to
`document.addEventListener`.  Closure identity is modelled by a `nextId`
counter in the engine state: each newly created closure carries a fresh
numeric id, so it is distinct from every previously created one, exactly
as distinct JS function objects are.  `addEventListener` ignores a
listener already registered for the event (DOM semantics), which the
model mirrors.  The only `keyup` listener ever mentioned is `input`
(defined in `app.js`), so its attachment is a single boolean flag.

Re-entrancy: the win branch of `checkCollisions` calls `this.init()`,
whose body sets `lastTime = Date.now()` and then calls `main()`.  The
nested invocation of `main` is recorded as an emitted event
(`UpdEvent.mainInvoked`) rather than executed inline; the `Date.now()`
read inside `init` is modelled by the `now` parameter threaded through
the frame.
-/

namespace Engine

/-- The value set of `gameStatus` in engine.js:
`"new game"`, `"in game"`, `"game over"`. -/
inductive GamePhase where
  | NewGame
  | InGame
  | GameOver
deriving DecidableEq

/-- A position `(x, y)`, as carried by the `player` and each element of
`allEnemies`. -/
structure Pos where
  x : ℚ
  y : ℚ
deriving DecidableEq

/-- Event listeners the engine attaches or detaches.  `input` is the
movement key-up listener from app.js (a single, fixed function object);
`startInput`, `gameoverInput` and `gameStartInput` are the key-down
closures created inside `update` (NewGame branch), `update` (GameOver
branch) and `reset` respectively — a fresh object, tagged here with a
fresh id, on every call. -/
inductive Listener where
  | inputKeyup
  | startInput (id : Nat)
  | gameoverInput (id : Nat)
  | gameStartInput (id : Nat)
deriving DecidableEq

/-- The mutable globals of the engine scope: `gameStatus`, `player`,
`allEnemies`, `lastTime`, plus the set of listeners currently attached
to the document (`keyupInputAttached` for the app.js `input` key-up
listener, `keydownListeners` in attachment order) and the fresh-closure
counter `nextId`. -/
structure EngineState where
  phase : GamePhase
  player : Pos
  enemies : List Pos
  lastTime : ℚ
  keyupInputAttached : Bool
  keydownListeners : List Listener
  nextId : Nat
deriving DecidableEq

/-- Effects a frame emits, used to record which operations a branch of
the engine invoked and in what order. -/
inductive UpdEvent where
  | detachKeyup
  | attachKeyup
  | attachKeydown (l : Listener)
  | entitiesUpdated (dt : ℚ)
  | collisionsChecked
  | initInvoked
  | mainInvoked
deriving DecidableEq

/-- `document.addEventListener("keydown", l)`: a no-op when `l` is
already registered for the event, otherwise appends `l`. -/
def addKeydown (l : Listener) (s : EngineState) : EngineState :=
  if l ∈ s.keydownListeners then s
  else { s with keydownListeners := s.keydownListeners ++ [l] }

/-- The rectangle-overlap test of `checkCollisions` (engine.js
lines 128–131), exactly as written:
`player.x < enemy.x + 60 && player.x + 37 > enemy.x &&
 player.y < enemy.y + 25 && 30 + player.y > enemy.y`. -/
def collides (p e : Pos) : Bool :=
  decide (p.x < e.x + 60) && decide (p.x + 37 > e.x) &&
  decide (p.y < e.y + 25) && decide (30 + p.y > e.y)

/-- The `allEnemies.forEach` loop of `checkCollisions`: each enemy in
turn is tested against the current player position; on overlap the
player is moved to `(200, 380)`.  Returns the player position after the
loop. -/
def checkCollisionsLoop (p : Pos) : List Pos → Pos
  | [] => p
  | e :: es => checkCollisionsLoop (if collides p e then ⟨200, 380⟩ else p) es

/-- `init` (engine.js lines 66–69): sets `lastTime` to the current time
and invokes `main`.  The invocation of `main` — the start of a new
frame-callback chain — is recorded as an emitted event. -/
def init (now : ℚ) (s : EngineState) : EngineState × List UpdEvent :=
  ({ s with lastTime := now }, [UpdEvent.mainInvoked])

/-- `checkCollisions` (engine.js lines 126–145): runs the enemy-overlap
loop, then, if the player's y position (as left by the loop) is below 0,
resets the player to `(200, 380)`, sets the phase to GameOver and calls
`this.init()`. -/
def checkCollisions (now : ℚ) (s : EngineState) : EngineState × List UpdEvent :=
  let p1 := checkCollisionsLoop s.player s.enemies
  if p1.y < 0 then
    let s1 := { s with player := ⟨200, 380⟩, phase := GamePhase.GameOver }
    let r := init now s1
    (r.1, UpdEvent.initInvoked :: r.2)
  else
    ({ s with player := p1 }, [])

/-- The body of the key-down closure created in the NewGame branch of
`update` (engine.js lines 86–92): on keycode 13 it sets `gameStatus` to
`"in game"`, otherwise it leaves the phase alone. -/
def startInput (keyCode : Nat) (phase : GamePhase) : GamePhase :=
  if keyCode = 13 then GamePhase.InGame else phase

/-- The body of the key-down closure created in the GameOver branch of
`update` (engine.js lines 110–115): on keycode 13 it sets `gameStatus`
to `"in game"`, otherwise it leaves the phase alone. -/
def gameoverInput (keyCode : Nat) (phase : GamePhase) : GamePhase :=
  if keyCode = 13 then GamePhase.InGame else phase

/-- `updateEntities` (engine.js lines 154–159): calls `enemy.update(dt)`
on every enemy and `player.update()` on the player.  The entity update
methods live in app.js (an external collaborator, not part of the engine);
they are abstract parameters `eUpd` and `pUpd` here — the enemy one
receives `dt`, the player one does not. -/
def updateEntities (eUpd : ℚ → Pos → Pos) (pUpd : Pos → Pos) (dt : ℚ)
    (s : EngineState) : EngineState :=
  { s with enemies := s.enemies.map (eUpd dt), player := pUpd s.player }

/-- `update` (engine.js lines 80–121): the switch on `gameStatus`.
NewGame: detaches the `input` key-up listener and attaches a freshly
created `startInput` key-down closure.  InGame: attaches the `input`
key-up listener, updates the entities, runs `checkCollisions`.
GameOver: detaches the `input` key-up listener and attaches a freshly
created `gameoverInput` key-down closure. -/
def update (eUpd : ℚ → Pos → Pos) (pUpd : Pos → Pos) (dt now : ℚ)
    (s : EngineState) : EngineState × List UpdEvent :=
  match s.phase with
  | GamePhase.NewGame =>
      let s1 := { s with keyupInputAttached := false }
      let l := Listener.startInput s1.nextId
      let s2 := addKeydown l { s1 with nextId := s1.nextId + 1 }
      (s2, [UpdEvent.detachKeyup, UpdEvent.attachKeydown l])
  | GamePhase.InGame =>
      let s1 := { s with keyupInputAttached := true }
      let s2 := updateEntities eUpd pUpd dt s1
      let r := checkCollisions now s2
      (r.1, [UpdEvent.attachKeyup, UpdEvent.entitiesUpdated dt,
             UpdEvent.collisionsChecked] ++ r.2)
  | GamePhase.GameOver =>
      let s1 := { s with keyupInputAttached := false }
      let l := Listener.gameoverInput s1.nextId
      let s2 := addKeydown l { s1 with nextId := s1.nextId + 1 }
      (s2, [UpdEvent.detachKeyup, UpdEvent.attachKeydown l])

/-- The steps the body of `main` (engine.js lines 35–60) performs, in
source order. -/
inductive MainStep where
  | callUpdate (dt : ℚ)
  | callRender
  | setLastTime (t : ℚ)
  | scheduleFrame
deriving DecidableEq

/-- `main` (engine.js lines 35–60), the recurring frame callback:
computes `dt = (now - lastTime) / 1000`, calls `update(dt)`, calls
`render()`, sets `lastTime = now`, and passes itself to
`requestAnimationFrame` once.  The trace lists the direct calls the
body makes, in order. -/
def main (eUpd : ℚ → Pos → Pos) (pUpd : Pos → Pos) (now : ℚ)
    (s : EngineState) : EngineState × List MainStep :=
  let dt := (now - s.lastTime) / 1000
  let s1 := (update eUpd pUpd dt now s).1
  let s2 := { s1 with lastTime := now }
  (s2, [MainStep.callUpdate dt, MainStep.callRender,
        MainStep.setLastTime now, MainStep.scheduleFrame])

/-- Calls `render` issues against the 2D drawing context (plus the
delegated entity renders of `renderEntities`). -/
inductive CanvasOp where
  | clearRect (x y w h : ℚ)
  | drawImage (img : String) (x y : ℚ)
  | setFillStyle (c : String)
  | setFont (f : String)
  | setTextAlign (a : String)
  | fillText (t : String) (x y : ℚ)
  | renderEnemy (e : Pos)
  | renderPlayer (p : Pos)
deriving DecidableEq

/-- `canvas.width` (engine.js line 28). -/
def canvasWidth : ℚ := 505

/-- `canvas.height` (engine.js line 29). -/
def canvasHeight : ℚ := 606

/-- The `rowImages` array of `render` (engine.js lines 171–178). -/
def rowImages : List String :=
  [("images/water-block.png"), ("images/stone-block.png"),
   ("images/stone-block.png"), ("images/stone-block.png"),
   ("images/grass-block.png"), ("images/grass-block.png")]

/-- The 6-row by 5-column board loop shared by the three branches of
`render`'s switch, with `cell` the body of the inner loop. -/
def boardOps (cell : Nat → Nat → List CanvasOp) : List CanvasOp :=
  (List.range 6).flatMap fun row => (List.range 5).flatMap fun col => cell row col

/-- One inner-loop iteration of the NewGame branch of `render`
(engine.js lines 188–209): the tile draw followed by the title and
instruction text (the text calls sit inside the cell loop in the
source, so they are re-issued for every cell). -/
def newGameCell (row col : Nat) : List CanvasOp :=
  [CanvasOp.drawImage (rowImages.getD row ("")) (col * 101) (row * 83),
   CanvasOp.setFillStyle ("black"),
   CanvasOp.setFont ("40px Comic Sans MS"),
   CanvasOp.setTextAlign ("center"),
   CanvasOp.fillText ("FEND Arcade Game") (canvasWidth / 2) (canvasHeight / 3),
   CanvasOp.setFillStyle ("black"),
   CanvasOp.setFont ("20px Comic Sans MS"),
   CanvasOp.setTextAlign ("center"),
   CanvasOp.fillText ("Press Enter To Start") (canvasWidth / 2) (canvasHeight / 2.5),
   CanvasOp.setFillStyle ("black"),
   CanvasOp.setFont ("16px Comic Sans MS"),
   CanvasOp.setTextAlign ("center"),
   CanvasOp.fillText ("Use the arrow keys to move") (canvasWidth / 2) (canvasHeight / 1.7),
   CanvasOp.fillText ("Avoid the bugs to win the game!") (canvasWidth / 2) (canvasHeight / 1.5),
   CanvasOp.setFillStyle ("Black"),
   CanvasOp.setFont ("20px Comic Sans MS"),
   CanvasOp.setTextAlign ("center"),
   CanvasOp.fillText ("Good Luck!") (canvasWidth / 2) (canvasHeight / 1.2)]

/-- One inner-loop iteration of the InGame branch of `render`
(engine.js lines 218–229): just the tile draw. -/
def inGameCell (row col : Nat) : List CanvasOp :=
  [CanvasOp.drawImage (rowImages.getD row ("")) (col * 101) (row * 83)]

/-- One inner-loop iteration of the GameOver branch of `render`
(engine.js lines 234–248): the tile draw followed by the win/restart
text. -/
def gameOverCell (row col : Nat) : List CanvasOp :=
  [CanvasOp.drawImage (rowImages.getD row ("")) (col * 101) (row * 83),
   CanvasOp.setFillStyle ("black"),
   CanvasOp.setFont ("40px Comic Sans MS"),
   CanvasOp.setTextAlign ("center"),
   CanvasOp.fillText ("CONGRATULATIONS!") (canvasWidth / 2) (canvasHeight / 3),
   CanvasOp.fillText ("You won!") (canvasWidth / 2) (canvasHeight / 2.3),
   CanvasOp.setFillStyle ("black"),
   CanvasOp.setFont ("20px Comic Sans MS"),
   CanvasOp.setTextAlign ("center"),
   CanvasOp.fillText ("Press Enter To Restart") (canvasWidth / 2) (canvasHeight / 2)]

/-- `renderEntities` (engine.js lines 258–267): every enemy's `render`,
then the player's. -/
def renderEntities (s : EngineState) : List CanvasOp :=
  s.enemies.map CanvasOp.renderEnemy ++ [CanvasOp.renderPlayer s.player]

/-- `render` (engine.js lines 167–252): clears the whole canvas with
`ctx.clearRect(0, 0, canvas.width, canvas.height)`, then switches on
`gameStatus` to draw the board (plus overlay text, or the entities when
in game). -/
def render (s : EngineState) : List CanvasOp :=
  CanvasOp.clearRect 0 0 canvasWidth canvasHeight ::
  (match s.phase with
   | GamePhase.NewGame => boardOps newGameCell
   | GamePhase.InGame => boardOps inGameCell ++ renderEntities s
   | GamePhase.GameOver => boardOps gameOverCell)

/-- States whose previously created closures all carry ids below the
fresh-closure counter — true of every state the engine can actually
reach, since `nextId` only grows and is bumped at each closure
creation. -/
def freshIds (s : EngineState) : Prop :=
  ∀ n, s.nextId ≤ n →
    Listener.startInput n ∉ s.keydownListeners ∧
    Listener.gameoverInput n ∉ s.keydownListeners

theorem checkCollisionsLoop_start (es : List Pos) :
    checkCollisionsLoop ⟨200, 380⟩ es = ⟨200, 380⟩ := by
  induction es with
  | nil => rfl
  | cons e es ih => simpa [checkCollisionsLoop] using ih

theorem checkCollisionsLoop_no_hit (p : Pos) (es : List Pos)
    (h : ∀ e ∈ es, collides p e = false) :
    checkCollisionsLoop p es = p := by
  induction es with
  | nil => rfl
  | cons e es ih =>
      have he := h e (List.mem_cons_self e es)
      rw [checkCollisionsLoop, he]
      exact ih fun e' he' => h e' (List.mem_cons_of_mem e he')

theorem checkCollisionsLoop_hit (p : Pos) (es : List Pos)
    (h : ∃ e ∈ es, collides p e = true) :
    checkCollisionsLoop p es = ⟨200, 380⟩ := by
  induction es with
  | nil => simp at h
  | cons e es ih =>
      by_cases hc : collides p e = true
      · rw [checkCollisionsLoop, hc]
        simp only [if_true]
        exact checkCollisionsLoop_start es
      · obtain ⟨e', he', hc'⟩ := h
        rcases List.mem_cons.mp he' with rfl | hmem
        · exact absurd hc' hc
        · rw [checkCollisionsLoop, if_neg hc]
          exact ih ⟨e', hmem, hc'⟩

theorem checkCollisions_keydownListeners (now : ℚ) (s : EngineState) :
    (checkCollisions now s).1.keydownListeners = s.keydownListeners := by
  simp only [checkCollisions, init]
  split <;> rfl

/-- C4: the key-down listeners the loop creates (`startInput` in the
NewGame branch, `gameoverInput` in the GameOver branch) change the
phase only on keycode 13 (Enter): from NewGame, Enter moves the phase
to InGame; from GameOver, Enter moves it back to InGame; any listener
invocation that changes the phase at all was an Enter press and set the
phase to InGame. -/
theorem listener_transitions_only_on_enter (k : Nat) (p : GamePhase) :
    startInput 13 GamePhase.NewGame = GamePhase.InGame ∧
    gameoverInput 13 GamePhase.GameOver = GamePhase.InGame ∧
    (k ≠ 13 → startInput k p = p ∧ gameoverInput k p = p) ∧
    (startInput k p ≠ p → k = 13 ∧ startInput k p = GamePhase.InGame) ∧
    (gameoverInput k p ≠ p → k = 13 ∧ gameoverInput k p = GamePhase.InGame) := by
  refine ⟨rfl, rfl, fun hk => ?_, fun hch => ?_, fun hch => ?_⟩
  · simp [startInput, gameoverInput, hk]
  · by_cases hk : k = 13
    · subst hk
      exact ⟨rfl, rfl⟩
    · simp [startInput, hk] at hch
  · by_cases hk : k = 13
    · subst hk
      exact ⟨rfl, rfl⟩
    · simp [gameoverInput, hk] at hch

/-- C4 witness: a non-Enter key (keycode 7) leaves both NewGame and
GameOver unchanged, and Enter transitions them to InGame. -/
theorem listener_transitions_only_on_enter_witness :
    (7 : Nat) ≠ 13 ∧
    startInput 7 GamePhase.NewGame = GamePhase.NewGame ∧
    gameoverInput 7 GamePhase.GameOver = GamePhase.GameOver ∧
    startInput 13 GamePhase.NewGame = GamePhase.InGame ∧
    gameoverInput 13 GamePhase.GameOver = GamePhase.InGame := by
  refine ⟨by decide, ?_, ?_, ?_, ?_⟩
  · exact ((listener_transitions_only_on_enter 7 GamePhase.NewGame).2.2.1 (by decide)).1
  · exact ((listener_transitions_only_on_enter 7 GamePhase.GameOver).2.2.1 (by decide)).2
  · exact (listener_transitions_only_on_enter 0 GamePhase.NewGame).1
  · exact (listener_transitions_only_on_enter 0 GamePhase.NewGame).2.1

/-- C5: each invocation of `main`, the recurring frame callback, emits
exactly the step sequence: one `update` call with
`dt = (now - lastTime) / 1000`, then one `render` call, then the
`lastTime = now` write, then exactly one rescheduling via
`requestAnimationFrame`; and the post-state's clock holds `now`. -/
theorem main_steps (eUpd : ℚ → Pos → Pos) (pUpd : Pos → Pos) (now : ℚ)
    (s : EngineState) :
    (main eUpd pUpd now s).2 =
      [MainStep.callUpdate ((now - s.lastTime) / 1000), MainStep.callRender,
       MainStep.setLastTime now, MainStep.scheduleFrame] ∧
    (main eUpd pUpd now s).1.lastTime = now :=
  ⟨rfl, rfl⟩

/-- C6: in every phase, the first drawing-context call `render` emits
is the full-surface clear `clearRect(0, 0, canvas.width, canvas.height)`
— every other operation comes after it. -/
theorem render_clears_first (s : EngineState) :
    ∃ rest, render s = CanvasOp.clearRect 0 0 canvasWidth canvasHeight :: rest :=
  ⟨_, rfl⟩

/-- C7: the collision predicate of `checkCollisions` is exactly the
axis-aligned rectangle-overlap test on the 60×25 enemy hitbox and the
37×30 player hitbox; it detects the player at (200, 380) against an
enemy at (180, 380) and rejects an enemy at (400, 380). -/
theorem collides_iff_rect_overlap :
    (∀ p e : Pos, collides p e = true ↔
      (p.x < e.x + 60 ∧ p.x + 37 > e.x ∧ p.y < e.y + 25 ∧ p.y + 30 > e.y)) ∧
    collides ⟨200, 380⟩ ⟨180, 380⟩ = true ∧
    collides ⟨200, 380⟩ ⟨400, 380⟩ = false := by
  refine ⟨fun p e => ?_, by norm_num [collides], by norm_num [collides]⟩
  simp only [collides, Bool.and_eq_true, decide_eq_true_eq, and_assoc]
  constructor
  · rintro ⟨h1, h2, h3, h4⟩
    rw [add_comm] at h4
    exact ⟨h1, h2, h3, h4⟩
  · rintro ⟨h1, h2, h3, h4⟩
    rw [add_comm] at h4
    exact ⟨h1, h2, h3, h4⟩

/-- C1 counterexample: with the player at (200, -1) — so its y position
is below 0 — and one enemy also at (200, -1), the enemy-overlap loop of
`checkCollisions` runs first and resets the player's y to 380, so the
subsequent win check does not fire and the phase stays InGame rather
than becoming GameOver as the claim demands. -/
theorem c1_overlap_cancels_win :
    (⟨GamePhase.InGame, ⟨200, -1⟩, [⟨200, -1⟩], 0, true, [], 0⟩ :
        EngineState).player.y < 0 ∧
    (checkCollisions 7
        ⟨GamePhase.InGame, ⟨200, -1⟩, [⟨200, -1⟩], 0, true, [], 0⟩).1.phase ≠
      GamePhase.GameOver ∧
    (checkCollisions 7
        ⟨GamePhase.InGame, ⟨200, -1⟩, [⟨200, -1⟩], 0, true, [], 0⟩).1.phase =
      GamePhase.InGame := by
  have hloop : checkCollisionsLoop (⟨200, -1⟩ : Pos) [⟨200, -1⟩] = ⟨200, 380⟩ := by
    simp [checkCollisionsLoop, collides]
  refine ⟨by norm_num, ?_, ?_⟩ <;>
    simp [checkCollisions, hloop, show ¬((380 : ℚ) < 0) by norm_num]

/-- C1 (amended): if, during an InGame update, the player's y position
is below 0 and no enemy hitbox overlaps the player's hitbox that frame,
then `checkCollisions` resets the player to (200, 380), sets the phase
to GameOver, resets the frame clock and invokes `init`.  (The claim's
"regardless of simultaneous enemy collisions" is what fails: an overlap
resets y to 380 before the win check, which then does not fire.) -/
theorem checkCollisions_win_when_clear (now : ℚ) (s : EngineState)
    (hy : s.player.y < 0)
    (hclear : ∀ e ∈ s.enemies, collides s.player e = false) :
    checkCollisions now s =
      ({ s with player := ⟨200, 380⟩, phase := GamePhase.GameOver,
                lastTime := now },
       [UpdEvent.initInvoked, UpdEvent.mainInvoked]) := by
  have hloop := checkCollisionsLoop_no_hit s.player s.enemies hclear
  simp [checkCollisions, init, hloop, hy]

/-- C1 witness for the amended theorem: a player at (200, -1) with no
enemy near ends the frame at (200, 380) with the phase GameOver. -/
theorem checkCollisions_win_when_clear_witness :
    (⟨GamePhase.InGame, ⟨200, -1⟩, [], 0, true, [], 0⟩ :
        EngineState).player.y < 0 ∧
    checkCollisions 7 ⟨GamePhase.InGame, ⟨200, -1⟩, [], 0, true, [], 0⟩ =
      (⟨GamePhase.GameOver, ⟨200, 380⟩, [], 7, true, [], 0⟩,
       [UpdEvent.initInvoked, UpdEvent.mainInvoked]) :=
  ⟨by decide, checkCollisions_win_when_clear 7 _ (by decide) (by simp)⟩

/-- C8: when the win check fires (the player's y position is below 0
once the enemy loop has run), `checkCollisions` sets the phase to
GameOver and then re-invokes `init`, which resets `lastTime` to the
current time and invokes the frame callback `main` once more — an
additional frame-callback chain beside the outer one, which also still
reschedules itself. -/
theorem checkCollisions_win_reinvokes_init (now : ℚ) (s : EngineState)
    (h : (checkCollisionsLoop s.player s.enemies).y < 0) :
    (checkCollisions now s).2 = [UpdEvent.initInvoked, UpdEvent.mainInvoked] ∧
    (checkCollisions now s).1.phase = GamePhase.GameOver ∧
    (checkCollisions now s).1.lastTime = now ∧
    (∀ (t : ℚ) (s₀ : EngineState),
      init t s₀ = ({ s₀ with lastTime := t }, [UpdEvent.mainInvoked])) := by
  refine ⟨?_, ?_, ?_, fun t s₀ => rfl⟩ <;> simp [checkCollisions, init, h]

/-- C8 witness: a player left at (100, -2) by the enemy loop triggers
the win branch: init is invoked and a second `main` chain starts. -/
theorem checkCollisions_win_reinvokes_init_witness :
    (checkCollisionsLoop (⟨100, -2⟩ : Pos) []).y < 0 ∧
    (checkCollisions 3 ⟨GamePhase.InGame, ⟨100, -2⟩, [], 9, true, [], 0⟩).2 =
      [UpdEvent.initInvoked, UpdEvent.mainInvoked] ∧
    (checkCollisions 3 ⟨GamePhase.InGame, ⟨100, -2⟩, [], 9, true, [], 0⟩).1.phase =
      GamePhase.GameOver :=
  ⟨by decide,
   (checkCollisions_win_reinvokes_init 3 _ (by decide)).1,
   (checkCollisions_win_reinvokes_init 3 _ (by decide)).2.1⟩

/-- C9: `checkCollisions` never changes any enemy's state; and when no
enemy hitbox overlaps the player's hitbox and the player's y position
is at least 0, it leaves the whole state — player position, phase and
frame clock included — unchanged and emits no effect. -/
theorem checkCollisions_frame_effect (now : ℚ) (s : EngineState) :
    (checkCollisions now s).1.enemies = s.enemies ∧
    ((∀ e ∈ s.enemies, collides s.player e = false) → 0 ≤ s.player.y →
      checkCollisions now s = (s, [])) := by
  constructor
  · simp only [checkCollisions, init]
    split <;> rfl
  · intro hclear hy
    have hloop := checkCollisionsLoop_no_hit s.player s.enemies hclear
    simp [checkCollisions, hloop, not_lt.mpr hy]

/-- C9 witness: with no enemy and the player at (200, 380), the frame
state passes through `checkCollisions` untouched. -/
theorem checkCollisions_frame_effect_witness :
    (∀ e ∈ ([] : List Pos), collides ⟨200, 380⟩ e = false) ∧
    (0 : ℚ) ≤ 380 ∧
    checkCollisions 5 ⟨GamePhase.InGame, ⟨200, 380⟩, [], 11, true, [], 2⟩ =
      (⟨GamePhase.InGame, ⟨200, 380⟩, [], 11, true, [], 2⟩, []) :=
  ⟨by simp, by decide,
   (checkCollisions_frame_effect 5 _).2 (by simp) (by decide)⟩

/-- C2 (the code evaluated at the failing input): two consecutive
`update` calls in the NewGame phase with no intervening input leave the
phase at NewGame, but each call attaches a freshly created key-down
closure: one listener is attached after one call and two distinct ones
after two, so the set of attached listeners after n calls does not equal
the set after one. -/
theorem update_newGame_attaches_fresh_listener_each_call :
    ((update (fun _ e => e) id 0 0
        ⟨GamePhase.NewGame, ⟨200, 380⟩, [], 0, false, [], 0⟩).1.phase =
      GamePhase.NewGame) ∧
    ((update (fun _ e => e) id 0 0
        ⟨GamePhase.NewGame, ⟨200, 380⟩, [], 0, false, [], 0⟩).1.keydownListeners =
      [Listener.startInput 0]) ∧
    ((update (fun _ e => e) id 0 0
        (update (fun _ e => e) id 0 0
          ⟨GamePhase.NewGame, ⟨200, 380⟩, [], 0, false, [], 0⟩).1).1.phase =
      GamePhase.NewGame) ∧
    ((update (fun _ e => e) id 0 0
        (update (fun _ e => e) id 0 0
          ⟨GamePhase.NewGame, ⟨200, 380⟩, [], 0, false, [], 0⟩).1).1.keydownListeners =
      [Listener.startInput 0, Listener.startInput 1]) := by
  refine ⟨rfl, ?_, rfl, ?_⟩ <;> simp [update, addKeydown]

/-- C3: during an InGame update, if some enemy's 60×25 hitbox overlaps
the player's 37×30 hitbox, the player position after `checkCollisions`
is exactly (200, 380) and the phase is unchanged (InGame stays InGame);
and collision detection runs only in the InGame branch of `update` —
the NewGame and GameOver branches never invoke `checkCollisions`. -/
theorem collision_resets_player_and_only_ingame_checks (now : ℚ)
    (s : EngineState) (h : ∃ e ∈ s.enemies, collides s.player e = true) :
    (checkCollisions now s).1.player = ⟨200, 380⟩ ∧
    (checkCollisions now s).1.phase = s.phase ∧
    (∀ (eUpd : ℚ → Pos → Pos) (pUpd : Pos → Pos) (dt now₁ : ℚ)
       (s₁ : EngineState),
      UpdEvent.collisionsChecked ∈ (update eUpd pUpd dt now₁ s₁).2 ↔
        s₁.phase = GamePhase.InGame) := by
  have hloop := checkCollisionsLoop_hit s.player s.enemies h
  refine ⟨?_, ?_, ?_⟩
  · simp [checkCollisions, hloop, show ¬((380 : ℚ) < 0) by norm_num]
  · simp [checkCollisions, hloop, show ¬((380 : ℚ) < 0) by norm_num]
  · intro eUpd pUpd dt now₁ s₁
    obtain ⟨ph, p, es, lt, ku, kd, ni⟩ := s₁
    cases ph <;> simp [update]

/-- C3 witness: the player at (200, 380) overlapping an enemy at the
same spot ends the frame at (200, 380) with the phase still InGame. -/
theorem collision_resets_player_and_only_ingame_checks_witness :
    (∃ e ∈ [(⟨200, 380⟩ : Pos)], collides ⟨200, 380⟩ e = true) ∧
    (checkCollisions 5
        ⟨GamePhase.InGame, ⟨200, 380⟩, [⟨200, 380⟩], 0, true, [], 0⟩).1.player =
      (⟨200, 380⟩ : Pos) ∧
    (checkCollisions 5
        ⟨GamePhase.InGame, ⟨200, 380⟩, [⟨200, 380⟩], 0, true, [], 0⟩).1.phase =
      GamePhase.InGame :=
  ⟨⟨⟨200, 380⟩, by simp, by simp [collides]⟩,
   (collision_resets_player_and_only_ingame_checks 5 _
     ⟨⟨200, 380⟩, by simp, by simp [collides]⟩).1,
   (collision_resets_player_and_only_ingame_checks 5 _
     ⟨⟨200, 380⟩, by simp, by simp [collides]⟩).2.1⟩

theorem update_keydown_extends (eUpd : ℚ → Pos → Pos) (pUpd : Pos → Pos)
    (dt now : ℚ) (s : EngineState) :
    ∃ t, (update eUpd pUpd dt now s).1.keydownListeners =
      s.keydownListeners ++ t := by
  obtain ⟨ph, p, es, lt, ku, kd, ni⟩ := s
  cases ph
  case NewGame =>
    by_cases hmem : Listener.startInput ni ∈ kd
    · exact ⟨[], by simp [update, addKeydown, hmem]⟩
    · exact ⟨[Listener.startInput ni], by simp [update, addKeydown, hmem]⟩
  case InGame =>
    exact ⟨[], by simp [update, updateEntities, checkCollisions_keydownListeners]⟩
  case GameOver =>
    by_cases hmem : Listener.gameoverInput ni ∈ kd
    · exact ⟨[], by simp [update, addKeydown, hmem]⟩
    · exact ⟨[Listener.gameoverInput ni], by simp [update, addKeydown, hmem]⟩

/-- C10: no operation of the loop core removes a key-down listener:
in every phase, `update` (and hence a whole `main` frame) only ever
extends the key-down listener list, the old list remaining an initial
segment of the new; and, in a state whose attached closures all predate
the fresh-closure counter, the NewGame and GameOver branches each
attach one newly created, not-previously-attached key-down closure per
call. -/
theorem keydown_listeners_persist (eUpd : ℚ → Pos → Pos) (pUpd : Pos → Pos)
    (dt now : ℚ) (s : EngineState) :
    (∃ t, (update eUpd pUpd dt now s).1.keydownListeners =
      s.keydownListeners ++ t) ∧
    (∃ t, (main eUpd pUpd now s).1.keydownListeners =
      s.keydownListeners ++ t) ∧
    (freshIds s → s.phase ≠ GamePhase.InGame →
      ∃ l, l ∉ s.keydownListeners ∧
        (update eUpd pUpd dt now s).1.keydownListeners =
          s.keydownListeners ++ [l]) := by
  refine ⟨update_keydown_extends eUpd pUpd dt now s, ?_, ?_⟩
  · obtain ⟨t, ht⟩ :=
      update_keydown_extends eUpd pUpd ((now - s.lastTime) / 1000) now s
    exact ⟨t, by simpa [main] using ht⟩
  · intro hf hph
    obtain ⟨ph, p, es, lt, ku, kd, ni⟩ := s
    have hf1 := hf ni le_rfl
    cases ph
    case NewGame =>
      exact ⟨Listener.startInput ni, hf1.1,
        by simp [update, addKeydown, hf1.1]⟩
    case InGame => exact absurd rfl hph
    case GameOver =>
      exact ⟨Listener.gameoverInput ni, hf1.2,
        by simp [update, addKeydown, hf1.2]⟩

/-- C10 witness: from an empty-listener NewGame state, one `update`
call attaches exactly one fresh key-down listener. -/
theorem keydown_listeners_persist_witness :
    freshIds ⟨GamePhase.NewGame, ⟨0, 0⟩, [], 0, false, [], 0⟩ ∧
    GamePhase.NewGame ≠ GamePhase.InGame ∧
    (∃ l, l ∉ ([] : List Listener) ∧
      (update (fun _ e => e) id 0 0
        ⟨GamePhase.NewGame, ⟨0, 0⟩, [], 0, false, [], 0⟩).1.keydownListeners =
        [] ++ [l]) :=
  ⟨by simp [freshIds], by decide,
   (keydown_listeners_persist (fun _ e => e) id 0 0
      ⟨GamePhase.NewGame, ⟨0, 0⟩, [], 0, false, [], 0⟩).2.2
     (by simp [freshIds]) (by decide)⟩

end Engine
